import Mathlib

/-!
Verification of the document-knowledge-base synchronization engine.

This file gives a shallow embedding of the sync engine in
`src/netdocuments_sync.py`, the chunking processor in
`src/document_processor.py` and the knowledge-store id assignment in
`src/vector_store.py`, and proves the specified properties about it.

Modelling conventions:
* Python `dict` fields read with `.get` are modelled as `Option` values;
  a missing key and a `None` value are identified.
* Python truthiness of an optional string (`if not doc_id`) is modelled by
  `truthy`: `none` and `some ""` are falsy.
* Python string comparison `a > b` is lexicographic on code points, modelled
  by `pyStrGt` using Lean's lexicographic `String` order.
* External collaborators (download, text extraction, the text splitter and
  the knowledge-store upsert) are oracles supplied as explicit environment
  values; the engine's own control flow is translated line by line.
* Side effects that matter to the specification (the per-document attempt
  log line, the `finally`-block temp-file removal, and the terminal
  `save_sync_state` write) are recorded in an explicit event trace.
* `datetime.now()` is modelled by an abstract `clock : Nat → String`; the
  k-th modelled call reads `clock k`.  Only the calls whose results are
  persisted (the per-success `sync_date` and the terminal `last_sync`) are
  modelled; log timestamps and the provenance-tagging timestamp are not,
  since no proved statement depends on them.
* The provenance metadata tagging of chunks (lines 100-109 of
  `netdocuments_sync.py`) only mutates metadata fields that no statement
  below depends on, so it is not modelled.
-/

namespace KB

/-- Python truthiness of an optional string: `None` and `""` are falsy. -/
def truthy : Option String → Bool
  | none => false
  | some s => s ≠ ""

/-- Value of an optional string as used after a truthiness guard. -/
def pyGetStr (o : Option String) : String := o.getD ""

/-- Rendering of an optional string inside a Python f-string. -/
def pyShow : Option String → String
  | none => "None"
  | some s => s

/-- Strict lexicographic comparison of character lists by code point, with
a proper prefix smaller than the longer list (Python string `<`). -/
def listCharLt : List Char → List Char → Bool
  | _, [] => false
  | [], _ :: _ => true
  | a :: as, b :: bs =>
    if a.toNat < b.toNat then true
    else if b.toNat < a.toNat then false
    else listCharLt as bs

/-- Python string comparison `a > b` (strict lexicographic). -/
def pyStrGt (a b : String) : Bool := listCharLt b.data a.data

/-- The portion of a path after the last slash (`os.path.basename` /
`pathlib` final component for slash-free names). -/
def basename (p : String) : String :=
  String.mk ((p.data.reverse.takeWhile (fun c => c ≠ '/')).reverse)

/-- Python `str.lower()` restricted to character-wise lowering. -/
def strLower (s : String) : String := String.mk (s.data.map Char.toLower)

/-- Split a reversed character list at the first dot: returns the characters
seen before the dot and the remainder after it, or `none` if no dot. -/
def splitAtFirstDotRev : List Char → Option (List Char × List Char)
  | [] => none
  | c :: cs =>
    if c = '.' then some ([], cs)
    else
      match splitAtFirstDotRev cs with
      | some (a, b) => some (c :: a, b)
      | none => none

/-- Python `pathlib.Path(p).suffix`: the extension from the last dot of the final
component; empty when the dot is the first or the last character. -/
def pathSuffix (p : String) : String :=
  let name := basename p
  match splitAtFirstDotRev name.toList.reverse with
  | some (a, b) => if a = [] ∨ b = [] then "" else String.mk ('.' :: a.reverse)
  | none => ""

/-- Python `os.path.splitext(p)[1]`: the extension from the last dot of the final
component, present only when some non-dot character precedes that dot. -/
def splitextExt (p : String) : String :=
  let name := basename p
  match splitAtFirstDotRev name.toList.reverse with
  | some (a, b) => if b.any (fun c => c ≠ '.') then String.mk ('.' :: a.reverse) else ""
  | none => ""

/-- The list `Config.SUPPORTED_EXTENSIONS` from `config.py`. -/
def SUPPORTED_EXTENSIONS : List String := [".pdf", ".docx", ".txt"]

/-- A remote document record as consumed by the sync engine
(`doc_info` dictionaries). -/
structure DocInfo where
  id : Option String
  name : Option String
  modified : Option String
  author : Option String := none
  workspace : Option String := none
deriving Repr, DecidableEq

/-- A persisted entry of `sync_state["synced_documents"]`. -/
structure SyncedEntry where
  name : Option String
  modified : Option String
  sync_date : String
deriving Repr, DecidableEq

/-- A persisted entry of `sync_state["failed_documents"]`. -/
structure FailureEntry where
  id : Option String
  name : Option String
  error : Option String
deriving Repr, DecidableEq

/-- Association-list lookup, modelling Python `dict` access (keys are
unique because insertion updates in place). -/
def dictLookup {α : Type} (k : String) : List (String × α) → Option α
  | [] => none
  | (j, v) :: rest => if j = k then some v else dictLookup k rest

/-- Association-list insertion modelling Python `dict` assignment: an
existing key is updated in place, a new key is appended. -/
def dictInsert {α : Type} (k : String) (v : α) : List (String × α) → List (String × α)
  | [] => [(k, v)]
  | (j, w) :: rest => if j = k then (k, v) :: rest else (j, w) :: dictInsert k v rest

/-- The persisted sync state aggregate. -/
structure SyncState where
  last_sync : Option String
  synced_documents : List (String × SyncedEntry)
  failed_documents : List FailureEntry
deriving Repr, DecidableEq

/-- The default state returned by `get_sync_state` when no file exists. -/
def emptySyncState : SyncState :=
  { last_sync := none, synced_documents := [], failed_documents := [] }

/-- The document id as used for dictionary keys after the truthiness
guard (`doc_info.get("id")`). -/
def idOf (d : DocInfo) : String := pyGetStr d.id

/-- Function `is_document_supported` from `netdocuments_sync.py` lines 53-57. -/
def is_document_supported (doc : DocInfo) : Bool :=
  let filename := pyGetStr doc.name
  let file_ext := strLower (pathSuffix filename)
  SUPPORTED_EXTENSIONS.contains file_ext

/-- Function `should_sync_document` from `netdocuments_sync.py` lines 59-79. -/
def should_sync_document (doc : DocInfo) (sync_state : SyncState) : Bool :=
  if truthy doc.id = false then false
  else if is_document_supported doc = false then false
  else
    match dictLookup (idOf doc) sync_state.synced_documents with
    | some entry =>
      if truthy doc.modified && truthy entry.modified then
        pyStrGt (pyGetStr doc.modified) (pyGetStr entry.modified)
      else true
    | none => true

/-- Chunk metadata as built by `process_document` and read by
`add_documents` in `vector_store.py`. -/
structure Metadata where
  source : Option String := none
  file_path : Option String := none
  file_type : Option String := none
  chunk_id : Option Nat := none
  total_chunks : Option Nat := none
deriving Repr, DecidableEq

/-- A LangChain document: one text chunk with its metadata. -/
structure LCDocument where
  page_content : String
  metadata : Metadata
deriving Repr, DecidableEq

/-- The dictionary returned by `RAGPipeline.add_documents` as far as
`sync_document` reads it (`rag_pipeline.py` lines 60-77; that function
catches every exception internally, so it returns rather than raises). -/
structure AddResult where
  success : Bool
  message : String
deriving Repr, DecidableEq

/-- Environment of one `sync_document` call: the outcomes of its external
collaborators.  `download` models `self.api.download_document` (it may
raise, or return a possibly-falsy path); `process` models
`self.document_processor.process_document` on the downloaded file (it may
raise); `addResult` models the dictionary returned by
`self.rag_pipeline.add_documents`. -/
structure DocEnv where
  download : Except String (Option String)
  process : Except String (List LCDocument)
  addResult : AddResult

/-- Observable side effects of the engine. `attempt` is the
"Syncing document" log line opening each `sync_document` call;
`cleanupTemp p` is the `finally` block that removes the temp file `p`
when it exists; `saveState` is the `save_sync_state` file write. -/
inductive Event where
  | attempt (id : Option String)
  | cleanupTemp (path : String)
  | saveState (st : SyncState)
deriving Repr, DecidableEq

/-- Function `sync_document` from `netdocuments_sync.py` lines 81-130: returns the
`(success, error)` pair together with the trace of its side effects. -/
def sync_document (ragAvailable : Bool) (env : DocEnv) (doc : DocInfo) :
    (Bool × Option String) × List Event :=
  let doc_name :=
    match doc.name with
    | some n => n
    | none => "document_" ++ pyShow doc.id
  match env.download with
  | Except.error e =>
    ((false, some ("Error syncing document " ++ doc_name ++ ": " ++ e)),
     [Event.attempt doc.id])
  | Except.ok temp_file_path =>
    if truthy temp_file_path = false then
      ((false, some ("Failed to download document " ++ doc_name)),
       [Event.attempt doc.id])
    else
      let p := pyGetStr temp_file_path
      match env.process with
      | Except.error e =>
        ((false, some ("Error syncing document " ++ doc_name ++ ": " ++ e)),
         [Event.attempt doc.id, Event.cleanupTemp p])
      | Except.ok _documents =>
        if ragAvailable && !env.addResult.success then
          ((false, some ("Failed to add " ++ doc_name ++ " to knowledge base: "
              ++ env.addResult.message)),
           [Event.attempt doc.id, Event.cleanupTemp p])
        else
          ((true, none), [Event.attempt doc.id, Event.cleanupTemp p])

/-- Whether a `sync_document` call with this environment succeeds. -/
def succeedsB (ragAvailable : Bool) (env : DocInfo → DocEnv) (d : DocInfo) : Bool :=
  (sync_document ragAvailable (env d) d).1.1

/-- The error message a failing `sync_document` call reports. -/
def errOf (ragAvailable : Bool) (env : DocInfo → DocEnv) (d : DocInfo) : Option String :=
  (sync_document ragAvailable (env d) d).1.2

/-- The event trace of one `sync_document` call. -/
def evsOf (ragAvailable : Bool) (env : DocInfo → DocEnv) (d : DocInfo) : List Event :=
  (sync_document ragAvailable (env d) d).2

/-- The failure record appended for a failing document
(`netdocuments_sync.py` lines 202-206). -/
def failEntryOf (ragAvailable : Bool) (env : DocInfo → DocEnv) (d : DocInfo) : FailureEntry :=
  { id := d.id, name := d.name, error := errOf ragAvailable env d }

/-- In-memory state of the `sync_documents` loop: the mutable
`sync_state` dictionary, the counters, the accumulated failure list, the
number of modelled `datetime.now()` calls made so far, and the event
trace. -/
structure LoopState where
  state : SyncState
  synced : Nat
  failed : Nat
  failedDocs : List FailureEntry
  k : Nat
  trace : List Event
deriving Repr

/-- One iteration of the `sync_documents` loop
(`netdocuments_sync.py` lines 185-206). -/
def syncStep (ragAvailable : Bool) (env : DocInfo → DocEnv) (clock : Nat → String)
    (ls : LoopState) (doc : DocInfo) : LoopState :=
  if should_sync_document doc ls.state then
    if (sync_document ragAvailable (env doc) doc).1.1 then
      { ls with
        state := { ls.state with
          synced_documents :=
            dictInsert (idOf doc)
              { name := doc.name, modified := doc.modified, sync_date := clock ls.k }
              ls.state.synced_documents },
        synced := ls.synced + 1,
        k := ls.k + 1,
        trace := ls.trace ++ (sync_document ragAvailable (env doc) doc).2 }
    else
      { ls with
        failed := ls.failed + 1,
        failedDocs := ls.failedDocs
          ++ [{ id := doc.id, name := doc.name,
                error := (sync_document ragAvailable (env doc) doc).1.2 }],
        trace := ls.trace ++ (sync_document ragAvailable (env doc) doc).2 }
  else ls

/-- The whole per-document loop, as a fold over the document list. -/
def runLoop (ragAvailable : Bool) (env : DocInfo → DocEnv) (clock : Nat → String)
    (docs : List DocInfo) (ls : LoopState) : LoopState :=
  docs.foldl (syncStep ragAvailable env clock) ls

/-- The report dictionary returned by `sync_documents`. -/
structure SyncReport where
  success : Bool
  synced_count : Nat
  failed_count : Nat
  failed_documents : List FailureEntry
  total_processed : Nat
deriving Repr, DecidableEq

/-- Everything one `sync_documents` call produces: the returned report,
the state passed to `save_sync_state`, and the event trace. -/
structure RunResult where
  report : SyncReport
  finalState : SyncState
  trace : List Event

/-- Function `sync_documents` from `netdocuments_sync.py` lines 176-225.  `st0` is
the state loaded by `get_sync_state`; the terminal `datetime.now()` call
for `last_sync` is the next modelled clock reading after the loop. -/
def sync_documents (ragAvailable : Bool) (env : DocInfo → DocEnv) (clock : Nat → String)
    (st0 : SyncState) (documents : List DocInfo) : RunResult :=
  let ls0 : LoopState :=
    { state := st0, synced := 0, failed := 0, failedDocs := [], k := 0, trace := [] }
  let ls := runLoop ragAvailable env clock documents ls0
  let finalState : SyncState :=
    { ls.state with
      last_sync := some (clock ls.k),
      failed_documents := ls.failedDocs }
  { report :=
      { success := ls.failed = 0,
        synced_count := ls.synced,
        failed_count := ls.failed,
        failed_documents := ls.failedDocs,
        total_processed := documents.length },
    finalState := finalState,
    trace := ls.trace ++ [Event.saveState finalState] }

/-- Environment of one `process_document` call: the result of
`extract_text` on the file (extraction is an external collaborator and
may raise) and the `RecursiveCharacterTextSplitter.split_text` function. -/
structure ProcEnv where
  extract : Except String String
  split_text : String → List String

/-- Python `str.strip()`: remove leading and trailing whitespace. -/
def pyStrip (s : String) : String :=
  String.mk (((s.data.dropWhile Char.isWhitespace).reverse.dropWhile
    Char.isWhitespace).reverse)

/-- Function `process_document` from `document_processor.py` lines 61-92. -/
def process_document (env : ProcEnv) (file_path : String) :
    Except String (List LCDocument) :=
  match env.extract with
  | Except.error e => Except.error e
  | Except.ok text =>
    if pyStrip text = "" then
      Except.error ("No text could be extracted from " ++ file_path)
    else
      let filename := basename file_path
      let metadata : Metadata :=
        { source := some filename,
          file_path := some file_path,
          file_type := some (strLower (splitextExt filename)) }
      let chunks := env.split_text text
      Except.ok (chunks.enum.map (fun p =>
        { page_content := p.2,
          metadata := { metadata with
            chunk_id := some p.1,
            total_chunks := some chunks.length } }))

/-- The ids `VectorStore.add_documents` assigns to a submitted batch
(`vector_store.py` lines 45-57): `doc_{i}_{source}_{chunk_id}` where `i`
is the position of the chunk in the submitted batch. -/
def add_documents_ids (documents : List LCDocument) : List String :=
  documents.enum.map (fun p =>
    "doc_" ++ toString p.1 ++ "_" ++ (p.2.metadata.source.getD "unknown")
      ++ "_" ++ toString (p.2.metadata.chunk_id.getD 0))

example : pathSuffix "a.txt" = ".txt" := by decide
example : pathSuffix ".txt" = "" := by decide
example : pathSuffix "a." = "" := by decide
example : pathSuffix "b/a.b.DocX" = ".DocX" := by decide
example : is_document_supported ⟨some "1", some "a.PDF", none, none, none⟩ = true := by decide
example : is_document_supported ⟨some "1", some "a.exe", none, none, none⟩ = false := by decide
example :
    should_sync_document ⟨some "1", some "a.txt", some "2024", none, none⟩ emptySyncState
      = true := by decide
example :
    should_sync_document ⟨none, some "a.txt", some "2024", none, none⟩ emptySyncState
      = false := by decide

example :
    (sync_documents true
        (fun _ => ⟨Except.ok (some "t"), Except.ok [], ⟨true, ""⟩⟩)
        (fun k => toString k) emptySyncState
        [⟨some "1", some "a.txt", some "m", none, none⟩]).report.synced_count = 1 := by
  decide

example :
    (sync_documents true
        (fun _ => ⟨Except.ok none, Except.ok [], ⟨true, ""⟩⟩)
        (fun k => toString k) emptySyncState
        [⟨some "1", some "a.txt", some "m", none, none⟩]).report.failed_count = 1 := by
  decide

/-! ### Association-list dictionary lemmas -/

theorem dictLookup_insert_self {α : Type} (k : String) (v : α) :
    ∀ m : List (String × α), dictLookup k (dictInsert k v m) = some v
  | [] => by simp [dictInsert, dictLookup]
  | (j, w) :: rest => by
    by_cases h : j = k
    · simp [dictInsert, h, dictLookup]
    · simp [dictInsert, h, dictLookup, dictLookup_insert_self k v rest]

theorem dictLookup_insert_ne {α : Type} {j k : String} (h : j ≠ k) (v : α) :
    ∀ m : List (String × α), dictLookup j (dictInsert k v m) = dictLookup j m
  | [] => by
    have hk : ¬ k = j := fun hh => h hh.symm
    simp [dictInsert, dictLookup, hk]
  | (a, w) :: rest => by
    have hk : ¬ k = j := fun hh => h hh.symm
    by_cases ha : a = k
    · subst ha
      simp [dictInsert, dictLookup, hk]
    · simp [dictInsert, ha, dictLookup, dictLookup_insert_ne h v rest]

theorem listCharLt_irrefl : ∀ cs : List Char, listCharLt cs cs = false
  | [] => rfl
  | a :: as => by simp [listCharLt, listCharLt_irrefl as]

theorem pyStrGt_self (s : String) : pyStrGt s s = false :=
  listCharLt_irrefl s.data

/-! ### Eligibility lemmas -/

/-- A supported document with a truthy id and no recorded entry is
eligible. -/
theorem should_sync_of_fresh (d : DocInfo) (st : SyncState)
    (h1 : truthy d.id = true) (h2 : is_document_supported d = true)
    (h3 : dictLookup (idOf d) st.synced_documents = none) :
    should_sync_document d st = true := by
  simp [should_sync_document, h1, h2, h3]

/-- A document whose recorded fingerprint equals its (truthy) current
`modified` value is skipped. -/
theorem should_sync_of_same_modified (d : DocInfo) (st : SyncState) (e : SyncedEntry)
    (h3 : dictLookup (idOf d) st.synced_documents = some e)
    (h4 : e.modified = d.modified) (h5 : truthy d.modified = true) :
    should_sync_document d st = false := by
  unfold should_sync_document
  cases h1 : truthy d.id
  · simp
  · cases h2 : is_document_supported d
    · simp
    · simp [h3, h4, h5, pyStrGt_self]

/-! ### `sync_document` trace lemmas -/

/-- Function `sync_document` never writes the sync state. -/
theorem sync_document_no_save (ragAvailable : Bool) (env : DocEnv) (doc : DocInfo) :
    ∀ s : SyncState, Event.saveState s ∉ (sync_document ragAvailable env doc).2 := by
  intro s
  unfold sync_document
  rcases env.download with e | p
  · simp
  · cases hp : truthy p
    · simp [hp]
    · rcases hproc : env.process with e | docs
      · simp [hp, hproc]
      · simp [hp, hproc]
        split <;> simp

/-- Every `sync_document` call logs the attempt for its document. -/
theorem sync_document_attempt (ragAvailable : Bool) (env : DocEnv) (doc : DocInfo) :
    Event.attempt doc.id ∈ (sync_document ragAvailable env doc).2 := by
  unfold sync_document
  rcases env.download with e | p
  · simp
  · cases hp : truthy p
    · simp [hp]
    · rcases hproc : env.process with e | docs
      · simp [hp, hproc]
      · simp [hp, hproc]
        split <;> simp

/-! ### Loop invariants for the terminal-commit property -/

/-- A loop step never writes the sync state. -/
theorem syncStep_no_save (ragA : Bool) (env : DocInfo → DocEnv) (clock : Nat → String)
    (ls : LoopState) (doc : DocInfo) (h : ∀ s, Event.saveState s ∉ ls.trace) :
    ∀ s, Event.saveState s ∉ (syncStep ragA env clock ls doc).trace := by
  intro s
  unfold syncStep
  split
  · split <;> simp [h s, sync_document_no_save ragA (env doc) doc s]
  · exact h s

/-- A loop step keeps the modelled clock counter equal to the success
counter. -/
theorem syncStep_k_synced (ragA : Bool) (env : DocInfo → DocEnv) (clock : Nat → String)
    (ls : LoopState) (doc : DocInfo) (h : ls.k = ls.synced) :
    (syncStep ragA env clock ls doc).k = (syncStep ragA env clock ls doc).synced := by
  unfold syncStep
  split
  · split <;> simp [h]
  · exact h

/-- The whole loop never writes the sync state. -/
theorem runLoop_no_save (ragA : Bool) (env : DocInfo → DocEnv) (clock : Nat → String) :
    ∀ (docs : List DocInfo) (ls : LoopState), (∀ s, Event.saveState s ∉ ls.trace) →
      ∀ s, Event.saveState s ∉ (runLoop ragA env clock docs ls).trace
  | [], _, h => h
  | d :: ds, ls, h =>
    runLoop_no_save ragA env clock ds (syncStep ragA env clock ls d)
      (syncStep_no_save ragA env clock ls d h)

/-- The whole loop keeps the clock counter equal to the success counter. -/
theorem runLoop_k_synced (ragA : Bool) (env : DocInfo → DocEnv) (clock : Nat → String) :
    ∀ (docs : List DocInfo) (ls : LoopState), ls.k = ls.synced →
      (runLoop ragA env clock docs ls).k = (runLoop ragA env clock docs ls).synced
  | [], _, h => h
  | d :: ds, ls, h =>
    runLoop_k_synced ragA env clock ds (syncStep ragA env clock ls d)
      (syncStep_k_synced ragA env clock ls d h)

/-- C2: `sync_documents` writes the persisted `SyncState` exactly once, as
the last event of the run, after every per-document outcome; no state
write happens during the loop, and the single written state carries
`last_sync` set to the clock reading taken after the loop (the batch's
end time, the next modelled `datetime.now()` after the `synced_count`
per-success readings). -/
theorem sync_documents_single_terminal_commit (ragA : Bool) (env : DocInfo → DocEnv)
    (clock : Nat → String) (st0 : SyncState) (docs : List DocInfo) :
    ∃ pre : List Event,
      (sync_documents ragA env clock st0 docs).trace
        = pre ++ [Event.saveState (sync_documents ragA env clock st0 docs).finalState] ∧
      (∀ s, Event.saveState s ∉ pre) ∧
      (sync_documents ragA env clock st0 docs).finalState.last_sync
        = some (clock ((sync_documents ragA env clock st0 docs).report.synced_count)) := by
  refine ⟨(runLoop ragA env clock docs
    { state := st0, synced := 0, failed := 0, failedDocs := [], k := 0, trace := [] }).trace,
    rfl, ?_, ?_⟩
  · exact runLoop_no_save ragA env clock docs _ (by intro s; simp)
  · have h := runLoop_k_synced ragA env clock docs
      { state := st0, synced := 0, failed := 0, failedDocs := [], k := 0, trace := [] } rfl
    simp [sync_documents, h]

theorem runLoop_nil (ragA : Bool) (env : DocInfo → DocEnv) (clock : Nat → String)
    (ls : LoopState) : runLoop ragA env clock [] ls = ls := rfl

theorem runLoop_cons (ragA : Bool) (env : DocInfo → DocEnv) (clock : Nat → String)
    (d : DocInfo) (ds : List DocInfo) (ls : LoopState) :
    runLoop ragA env clock (d :: ds) ls
      = runLoop ragA env clock ds (syncStep ragA env clock ls d) := rfl

/-- A failing (or skipped) step leaves the synced-documents map untouched. -/
theorem syncStep_fail_synced_documents (ragA : Bool) (env : DocInfo → DocEnv)
    (clock : Nat → String) (ls : LoopState) (doc : DocInfo)
    (hf : succeedsB ragA env doc = false) :
    (syncStep ragA env clock ls doc).state.synced_documents = ls.state.synced_documents := by
  unfold succeedsB at hf
  unfold syncStep
  split
  · simp [hf]
  · rfl

/-- A successful step replaces exactly the document's entry, recording the
document's current `modified` value as the fingerprint. -/
theorem syncStep_success_synced_documents (ragA : Bool) (env : DocInfo → DocEnv)
    (clock : Nat → String) (ls : LoopState) (doc : DocInfo)
    (he : should_sync_document doc ls.state = true)
    (hs : succeedsB ragA env doc = true) :
    (syncStep ragA env clock ls doc).state.synced_documents
      = dictInsert (idOf doc)
          { name := doc.name, modified := doc.modified, sync_date := clock ls.k }
          ls.state.synced_documents := by
  unfold succeedsB at hs
  unfold syncStep
  simp [he, hs]

/-- Any entry of the synced-documents map after a loop run is either the
entry that was already there before the run, or was written by a
successful sync of a batch document with that id and carries exactly that
document's `modified` value. -/
theorem runLoop_lookup_provenance (ragA : Bool) (env : DocInfo → DocEnv)
    (clock : Nat → String) :
    ∀ (docs : List DocInfo) (ls : LoopState) (j : String),
      dictLookup j (runLoop ragA env clock docs ls).state.synced_documents
        = dictLookup j ls.state.synced_documents ∨
      ∃ d ∈ docs, idOf d = j ∧ succeedsB ragA env d = true ∧
        ∃ t, dictLookup j (runLoop ragA env clock docs ls).state.synced_documents
          = some { name := d.name, modified := d.modified, sync_date := t }
  | [], _, _ => Or.inl rfl
  | d :: ds, ls, j => by
    rw [runLoop_cons]
    have hstep :
        dictLookup j (syncStep ragA env clock ls d).state.synced_documents
          = dictLookup j ls.state.synced_documents ∨
        (idOf d = j ∧ succeedsB ragA env d = true ∧
          dictLookup j (syncStep ragA env clock ls d).state.synced_documents
            = some { name := d.name, modified := d.modified, sync_date := clock ls.k }) := by
      cases hs : succeedsB ragA env d
      · exact Or.inl (by rw [syncStep_fail_synced_documents ragA env clock ls d hs])
      · cases he : should_sync_document d ls.state
        · exact Or.inl (by unfold syncStep; simp [he])
        · rw [syncStep_success_synced_documents ragA env clock ls d he hs]
          by_cases hj : idOf d = j
          · subst hj
            exact Or.inr ⟨rfl, rfl, dictLookup_insert_self _ _ _⟩
          · exact Or.inl
              (dictLookup_insert_ne (fun hh => hj hh.symm) _ _)
    rcases runLoop_lookup_provenance ragA env clock ds (syncStep ragA env clock ls d) j with
      IH | ⟨d', hd', hid, hsucc, t, ht⟩
    · rcases hstep with h | ⟨hj, hsucc, hl⟩
      · exact Or.inl (IH.trans h)
      · exact Or.inr ⟨d, List.mem_cons_self d ds, hj, hsucc, clock ls.k, IH.trans hl⟩
    · exact Or.inr ⟨d', List.mem_cons_of_mem d hd', hid, hsucc, t, ht⟩

/-- C3: the fingerprint invariant of every sync run. A failed attempt
never creates or updates a `SyncedEntry`; a successful attempt overwrites
exactly the synced document's entry, recording that document's current
`modified` value as the fingerprint; and any entry a run changed was
written by a successful sync of a batch document with that id and carries
exactly that document's `modified` value, so every entry's fingerprint is
the `modified` value of the document record at its most recent successful
sync. -/
theorem fingerprint_invariant (ragA : Bool) (env : DocInfo → DocEnv) (clock : Nat → String) :
    (∀ (ls : LoopState) (doc : DocInfo), succeedsB ragA env doc = false →
      (syncStep ragA env clock ls doc).state.synced_documents
        = ls.state.synced_documents) ∧
    (∀ (ls : LoopState) (doc : DocInfo),
      should_sync_document doc ls.state = true → succeedsB ragA env doc = true →
      dictLookup (idOf doc) (syncStep ragA env clock ls doc).state.synced_documents
        = some { name := doc.name, modified := doc.modified, sync_date := clock ls.k } ∧
      ∀ j, j ≠ idOf doc →
        dictLookup j (syncStep ragA env clock ls doc).state.synced_documents
          = dictLookup j ls.state.synced_documents) ∧
    (∀ (docs : List DocInfo) (ls : LoopState) (j : String),
      dictLookup j (runLoop ragA env clock docs ls).state.synced_documents
        = dictLookup j ls.state.synced_documents ∨
      ∃ d ∈ docs, idOf d = j ∧ succeedsB ragA env d = true ∧
        ∃ t, dictLookup j (runLoop ragA env clock docs ls).state.synced_documents
          = some { name := d.name, modified := d.modified, sync_date := t }) := by
  refine ⟨fun ls doc hf => syncStep_fail_synced_documents ragA env clock ls doc hf,
    fun ls doc he hs => ⟨?_, ?_⟩, runLoop_lookup_provenance ragA env clock⟩
  · rw [syncStep_success_synced_documents ragA env clock ls doc he hs]
    exact dictLookup_insert_self _ _ _
  · intro j hj
    rw [syncStep_success_synced_documents ragA env clock ls doc he hs]
    exact dictLookup_insert_ne hj _ _

theorem fingerprint_invariant_witness :
    ((syncStep true (fun _ => ⟨Except.error "boom", Except.ok [], ⟨true, ""⟩⟩)
        (fun _ => "t0") ⟨emptySyncState, 0, 0, [], 0, []⟩
        ⟨some "1", some "a.txt", some "m", none, none⟩).state.synced_documents
      = emptySyncState.synced_documents) ∧
    dictLookup (idOf ⟨some "1", some "a.txt", some "m", none, none⟩)
        ((syncStep true (fun _ => ⟨Except.ok (some "t"), Except.ok [], ⟨true, ""⟩⟩)
          (fun _ => "t0") ⟨emptySyncState, 0, 0, [], 0, []⟩
          ⟨some "1", some "a.txt", some "m", none, none⟩).state.synced_documents)
      = some { name := some "a.txt", modified := some "m", sync_date := "t0" } :=
  ⟨(fingerprint_invariant true _ _).1 _ _ (by decide),
   ((fingerprint_invariant true _ _).2.1
      ⟨emptySyncState, 0, 0, [], 0, []⟩ ⟨some "1", some "a.txt", some "m", none, none⟩
      (by decide) (by decide)).1⟩

/-- A document record with a truthy id and a supported extension. -/
def goodDoc (d : DocInfo) : Bool := truthy d.id && is_document_supported d

/-- The reduced form of an eligible, successful step. -/
theorem syncStep_success_eq (ragA : Bool) (env : DocInfo → DocEnv) (clock : Nat → String)
    (ls : LoopState) (doc : DocInfo)
    (he : should_sync_document doc ls.state = true)
    (hs : succeedsB ragA env doc = true) :
    syncStep ragA env clock ls doc =
      { state := { ls.state with
          synced_documents :=
            dictInsert (idOf doc)
              { name := doc.name, modified := doc.modified, sync_date := clock ls.k }
              ls.state.synced_documents },
        synced := ls.synced + 1,
        failed := ls.failed,
        failedDocs := ls.failedDocs,
        k := ls.k + 1,
        trace := ls.trace ++ evsOf ragA env doc } := by
  unfold succeedsB at hs
  unfold syncStep evsOf
  simp [he, hs]

/-- The reduced form of an eligible, failing step. -/
theorem syncStep_fail_eq (ragA : Bool) (env : DocInfo → DocEnv) (clock : Nat → String)
    (ls : LoopState) (doc : DocInfo)
    (he : should_sync_document doc ls.state = true)
    (hs : succeedsB ragA env doc = false) :
    syncStep ragA env clock ls doc =
      { state := ls.state,
        synced := ls.synced,
        failed := ls.failed + 1,
        failedDocs := ls.failedDocs ++ [failEntryOf ragA env doc],
        k := ls.k,
        trace := ls.trace ++ evsOf ragA env doc } := by
  unfold succeedsB at hs
  unfold syncStep evsOf failEntryOf errOf
  simp [he, hs]

/-- An ineligible document leaves the loop state untouched. -/
theorem syncStep_skip_eq (ragA : Bool) (env : DocInfo → DocEnv) (clock : Nat → String)
    (ls : LoopState) (doc : DocInfo)
    (he : should_sync_document doc ls.state = false) :
    syncStep ragA env clock ls doc = ls := by
  unfold syncStep
  simp [he]

/-- Characterization of the loop on a batch of supported documents with
truthy, pairwise-distinct ids none of which has a recorded entry: every
batch document is attempted, the counters count successes and failures,
the failure list collects exactly the failing documents in order, entries
appear exactly for the successful documents (with their `modified` value
as fingerprint), other keys are untouched, and the trace is the
concatenation of the per-document traces. -/
theorem runLoop_fresh (ragA : Bool) (env : DocInfo → DocEnv) (clock : Nat → String) :
    ∀ (docs : List DocInfo) (ls : LoopState),
      (∀ d ∈ docs, goodDoc d = true) →
      (docs.map idOf).Nodup →
      (∀ d ∈ docs, dictLookup (idOf d) ls.state.synced_documents = none) →
      (runLoop ragA env clock docs ls).synced
          = ls.synced + docs.countP (fun d => succeedsB ragA env d) ∧
      (runLoop ragA env clock docs ls).failed
          = ls.failed + docs.countP (fun d => !succeedsB ragA env d) ∧
      (runLoop ragA env clock docs ls).failedDocs
          = ls.failedDocs
            ++ (docs.filter (fun d => !succeedsB ragA env d)).map (failEntryOf ragA env) ∧
      (∀ j, j ∉ docs.map idOf →
        dictLookup j (runLoop ragA env clock docs ls).state.synced_documents
          = dictLookup j ls.state.synced_documents) ∧
      (∀ d ∈ docs, succeedsB ragA env d = true →
        ∃ t, dictLookup (idOf d) (runLoop ragA env clock docs ls).state.synced_documents
          = some { name := d.name, modified := d.modified, sync_date := t }) ∧
      (runLoop ragA env clock docs ls).trace
          = ls.trace ++ (docs.map (fun d => evsOf ragA env d)).flatten := by
  intro docs
  induction docs with
  | nil =>
    intro ls _ _ _
    refine ⟨rfl, rfl, by simp [runLoop_nil], fun j _ => rfl, by simp, by simp [runLoop_nil]⟩
  | cons d ds IH =>
    intro ls h1 h2 h3
    have hgd : goodDoc d = true := h1 d (List.mem_cons_self d ds)
    have ht : truthy d.id = true := by
      have h := hgd
      simp [goodDoc] at h
      exact h.1
    have hsup : is_document_supported d = true := by
      have h := hgd
      simp [goodDoc] at h
      exact h.2
    have he : should_sync_document d ls.state = true :=
      should_sync_of_fresh d ls.state ht hsup (h3 d (List.mem_cons_self d ds))
    have hnd : idOf d ∉ ds.map idOf ∧ (ds.map idOf).Nodup := by
      simp only [List.map_cons, List.nodup_cons] at h2
      exact h2
    have h1' : ∀ x ∈ ds, goodDoc x = true := fun x hx => h1 x (List.mem_cons_of_mem d hx)
    rw [runLoop_cons]
    cases hs : succeedsB ragA env d with
    | true =>
      rw [syncStep_success_eq ragA env clock ls d he hs]
      set ls1 : LoopState :=
        { state := { ls.state with
            synced_documents :=
              dictInsert (idOf d)
                { name := d.name, modified := d.modified, sync_date := clock ls.k }
                ls.state.synced_documents },
          synced := ls.synced + 1,
          failed := ls.failed,
          failedDocs := ls.failedDocs,
          k := ls.k + 1,
          trace := ls.trace ++ evsOf ragA env d } with hls1
      have h3' : ∀ x ∈ ds, dictLookup (idOf x) ls1.state.synced_documents = none := by
        intro x hx
        have hne : idOf x ≠ idOf d := by
          intro hh
          exact hnd.1 (hh ▸ List.mem_map_of_mem idOf hx)
        rw [hls1]
        simpa [dictLookup_insert_ne hne] using h3 x (List.mem_cons_of_mem d hx)
      obtain ⟨c1, c2, c3, c4, c5, c6⟩ := IH ls1 h1' hnd.2 h3'
      refine ⟨?_, ?_, ?_, ?_, ?_, ?_⟩
      · rw [c1, hls1]
        simp [List.countP_cons, hs]
        omega
      · rw [c2, hls1]
        simp [List.countP_cons, hs]
      · rw [c3, hls1]
        simp [List.filter_cons, hs]
      · intro j hj
        have hj1 : j ∉ ds.map idOf := fun hh => hj (List.mem_cons_of_mem _ hh)
        have hj2 : j ≠ idOf d := by
          intro hh
          exact hj (hh ▸ List.mem_cons_self _ _)
        rw [c4 j hj1, hls1]
        simpa using dictLookup_insert_ne hj2 _ ls.state.synced_documents
      · intro x hx hsx
        rcases List.mem_cons.mp hx with hx | hx
        · subst hx
          refine ⟨clock ls.k, ?_⟩
          rw [c4 (idOf x) hnd.1, hls1]
          simpa using dictLookup_insert_self _ _ ls.state.synced_documents
        · exact c5 x hx hsx
      · rw [c6, hls1]
        simp [List.flatten_cons]
    | false =>
      rw [syncStep_fail_eq ragA env clock ls d he hs]
      set ls1 : LoopState :=
        { state := ls.state,
          synced := ls.synced,
          failed := ls.failed + 1,
          failedDocs := ls.failedDocs ++ [failEntryOf ragA env d],
          k := ls.k,
          trace := ls.trace ++ evsOf ragA env d } with hls1
      have h3' : ∀ x ∈ ds, dictLookup (idOf x) ls1.state.synced_documents = none := by
        intro x hx
        rw [hls1]
        exact h3 x (List.mem_cons_of_mem d hx)
      obtain ⟨c1, c2, c3, c4, c5, c6⟩ := IH ls1 h1' hnd.2 h3'
      refine ⟨?_, ?_, ?_, ?_, ?_, ?_⟩
      · rw [c1, hls1]
        simp [List.countP_cons, hs]
      · rw [c2, hls1]
        simp [List.countP_cons, hs]
        omega
      · rw [c3, hls1]
        simp [List.filter_cons, hs]
      · intro j hj
        have hj1 : j ∉ ds.map idOf := fun hh => hj (List.mem_cons_of_mem _ hh)
        rw [c4 j hj1, hls1]
      · intro x hx hsx
        rcases List.mem_cons.mp hx with hx | hx
        · subst hx
          rw [hsx] at hs
          exact absurd hs (by simp)
        · exact c5 x hx hsx
      · rw [c6, hls1]
        simp [List.flatten_cons]

/-- Whether the download stage of an environment fails: the API call
raises, or returns a falsy path. -/
def downloadFails (e : DocEnv) : Bool :=
  match e.download with
  | Except.error _ => true
  | Except.ok p => !truthy p

/-- A document whose download fails is reported as a failure. -/
theorem downloadFails_not_succeeds (ragA : Bool) (env : DocInfo → DocEnv) (d : DocInfo)
    (h : downloadFails (env d) = true) : succeedsB ragA env d = false := by
  unfold downloadFails at h
  unfold succeedsB sync_document
  rcases hd : (env d).download with e | p
  · simp
  · rw [hd] at h
    simp at h
    simp [h]

/-- C4: in a batch of fresh, supported, distinct documents in which exactly
one document's download fails and every other document syncs successfully,
the report counts `N - 1` synced and `1` failed, the failing document's
failure record is in `failed_documents`, every successful document has a
`SyncedEntry` in the resulting state, and every document of the batch —
including those after the failure — is attempted. -/
theorem partial_failure_isolation (ragA : Bool) (env : DocInfo → DocEnv)
    (clock : Nat → String) (st0 : SyncState) (A B : List DocInfo) (d : DocInfo)
    (h1 : ∀ x ∈ A ++ d :: B, goodDoc x = true)
    (h2 : ((A ++ d :: B).map idOf).Nodup)
    (h3 : ∀ x ∈ A ++ d :: B, dictLookup (idOf x) st0.synced_documents = none)
    (hd : downloadFails (env d) = true)
    (hs : ∀ x ∈ A ++ B, succeedsB ragA env x = true) :
    (sync_documents ragA env clock st0 (A ++ d :: B)).report.synced_count
        = (A ++ d :: B).length - 1 ∧
    (sync_documents ragA env clock st0 (A ++ d :: B)).report.failed_count = 1 ∧
    failEntryOf ragA env d
        ∈ (sync_documents ragA env clock st0 (A ++ d :: B)).report.failed_documents ∧
    (∀ x ∈ A ++ B, ∃ e, dictLookup (idOf x)
        (sync_documents ragA env clock st0 (A ++ d :: B)).finalState.synced_documents
          = some e ∧ e.modified = x.modified) ∧
    (∀ x ∈ A ++ d :: B,
      Event.attempt x.id ∈ (sync_documents ragA env clock st0 (A ++ d :: B)).trace) := by
  have hds : succeedsB ragA env d = false := downloadFails_not_succeeds ragA env d hd
  have hsA : ∀ x ∈ A, succeedsB ragA env x = true :=
    fun x hx => hs x (List.mem_append_left B hx)
  have hsB : ∀ x ∈ B, succeedsB ragA env x = true :=
    fun x hx => hs x (List.mem_append_right A hx)
  obtain ⟨c1, c2, c3, c4, c5, c6⟩ := runLoop_fresh ragA env clock (A ++ d :: B)
    { state := st0, synced := 0, failed := 0, failedDocs := [], k := 0, trace := [] }
    h1 h2 h3
  refine ⟨?_, ?_, ?_, ?_, ?_⟩
  · show (runLoop ragA env clock (A ++ d :: B) _).synced = _
    rw [c1]
    have hA : A.countP (fun x => succeedsB ragA env x) = A.length :=
      List.countP_eq_length.mpr (fun x hx => hsA x hx)
    have hB : B.countP (fun x => succeedsB ragA env x) = B.length :=
      List.countP_eq_length.mpr (fun x hx => hsB x hx)
    simp [List.countP_cons, hA, hB, hds, List.length_append]
  · show (runLoop ragA env clock (A ++ d :: B) _).failed = _
    rw [c2]
    have hA : A.countP (fun x => !succeedsB ragA env x) = 0 :=
      List.countP_eq_zero.mpr (fun x hx => by simp [hsA x hx])
    have hB : B.countP (fun x => !succeedsB ragA env x) = 0 :=
      List.countP_eq_zero.mpr (fun x hx => by simp [hsB x hx])
    simp [List.countP_cons, hA, hB, hds]
  · show failEntryOf ragA env d ∈ (runLoop ragA env clock (A ++ d :: B) _).failedDocs
    rw [c3]
    have hA : A.filter (fun x => !succeedsB ragA env x) = [] :=
      List.filter_eq_nil_iff.mpr (fun x hx => by simp [hsA x hx])
    simp [List.filter_cons, hA, hds]
  · intro x hx
    have hxm : x ∈ A ++ d :: B := by
      rcases List.mem_append.mp hx with hx | hx
      · exact List.mem_append_left _ hx
      · exact List.mem_append_right _ (List.mem_cons_of_mem d hx)
    obtain ⟨t, ht⟩ := c5 x hxm (hs x hx)
    exact ⟨_, ht, rfl⟩
  · intro x hx
    show Event.attempt x.id
        ∈ (runLoop ragA env clock (A ++ d :: B) _).trace
          ++ [Event.saveState (sync_documents ragA env clock st0 (A ++ d :: B)).finalState]
    rw [c6]
    refine List.mem_append_left _ (List.mem_append_right _ ?_)
    exact List.mem_flatten.mpr
      ⟨evsOf ragA env x, List.mem_map_of_mem _ hx, sync_document_attempt ragA (env x) x⟩

theorem partial_failure_isolation_witness :
    (sync_documents true
        (fun x => if x.id = some "2"
          then ⟨Except.ok none, Except.ok [], ⟨true, ""⟩⟩
          else ⟨Except.ok (some "t"), Except.ok [], ⟨true, ""⟩⟩)
        (fun k => toString k) emptySyncState
        ([⟨some "1", some "a.txt", some "m", none, none⟩]
          ++ ⟨some "2", some "b.txt", some "m", none, none⟩
            :: [⟨some "3", some "c.txt", some "m", none, none⟩])).report.synced_count = 2 ∧
    (sync_documents true
        (fun x => if x.id = some "2"
          then ⟨Except.ok none, Except.ok [], ⟨true, ""⟩⟩
          else ⟨Except.ok (some "t"), Except.ok [], ⟨true, ""⟩⟩)
        (fun k => toString k) emptySyncState
        ([⟨some "1", some "a.txt", some "m", none, none⟩]
          ++ ⟨some "2", some "b.txt", some "m", none, none⟩
            :: [⟨some "3", some "c.txt", some "m", none, none⟩])).report.failed_count = 1 :=
  have h := partial_failure_isolation true
    (fun x => if x.id = some "2"
      then ⟨Except.ok none, Except.ok [], ⟨true, ""⟩⟩
      else ⟨Except.ok (some "t"), Except.ok [], ⟨true, ""⟩⟩)
    (fun k => toString k) emptySyncState
    [⟨some "1", some "a.txt", some "m", none, none⟩]
    [⟨some "3", some "c.txt", some "m", none, none⟩]
    ⟨some "2", some "b.txt", some "m", none, none⟩
    (by decide) (by decide) (by decide) (by decide) (by decide)
  ⟨h.1, h.2.1⟩

/-- A loop over documents that are all ineligible does nothing. -/
theorem runLoop_all_skip (ragA : Bool) (env : DocInfo → DocEnv) (clock : Nat → String) :
    ∀ (docs : List DocInfo) (ls : LoopState),
      (∀ d ∈ docs, should_sync_document d ls.state = false) →
      runLoop ragA env clock docs ls = ls
  | [], _, _ => rfl
  | d :: ds, ls, h => by
    rw [runLoop_cons, syncStep_skip_eq ragA env clock ls d (h d (List.mem_cons_self d ds))]
    exact runLoop_all_skip ragA env clock ds ls (fun x hx => h x (List.mem_cons_of_mem d hx))

/-- C5: after a first run in which every document of a fresh, supported,
distinct-id batch with truthy `modified` timestamps synced successfully,
re-running `sync_documents` on the same list with unchanged `modified`
timestamps skips every document: the second report's `synced_count` is `0`
and the synced-documents map is unchanged (whatever the second run's
environment and clock are, since skipped documents are never attempted). -/
theorem second_run_idempotent (ragA ragA2 : Bool) (env env2 : DocInfo → DocEnv)
    (clock clock2 : Nat → String) (st0 : SyncState) (docs : List DocInfo)
    (h1 : ∀ d ∈ docs, goodDoc d = true)
    (h2 : (docs.map idOf).Nodup)
    (h3 : ∀ d ∈ docs, dictLookup (idOf d) st0.synced_documents = none)
    (hm : ∀ d ∈ docs, truthy d.modified = true)
    (hs : ∀ d ∈ docs, succeedsB ragA env d = true) :
    (sync_documents ragA2 env2 clock2
        (sync_documents ragA env clock st0 docs).finalState docs).report.synced_count = 0 ∧
    (sync_documents ragA2 env2 clock2
        (sync_documents ragA env clock st0 docs).finalState docs).finalState.synced_documents
      = (sync_documents ragA env clock st0 docs).finalState.synced_documents := by
  obtain ⟨c1, c2, c3, c4, c5, c6⟩ := runLoop_fresh ragA env clock docs
    { state := st0, synced := 0, failed := 0, failedDocs := [], k := 0, trace := [] } h1 h2 h3
  have hskip : ∀ d ∈ docs,
      should_sync_document d (sync_documents ragA env clock st0 docs).finalState = false := by
    intro d hd
    obtain ⟨t, ht⟩ := c5 d hd (hs d hd)
    exact should_sync_of_same_modified d _
      { name := d.name, modified := d.modified, sync_date := t } ht rfl (hm d hd)
  have hrun := runLoop_all_skip ragA2 env2 clock2 docs
    ⟨(sync_documents ragA env clock st0 docs).finalState, 0, 0, [], 0, []⟩ hskip
  constructor
  · show (runLoop ragA2 env2 clock2 docs
      ⟨(sync_documents ragA env clock st0 docs).finalState, 0, 0, [], 0, []⟩).synced = 0
    rw [hrun]
  · show (runLoop ragA2 env2 clock2 docs
      ⟨(sync_documents ragA env clock st0 docs).finalState, 0, 0, [], 0, []⟩).state.synced_documents
      = (sync_documents ragA env clock st0 docs).finalState.synced_documents
    rw [hrun]

theorem second_run_idempotent_witness :
    (sync_documents true (fun _ => ⟨Except.ok (some "u"), Except.ok [], ⟨true, ""⟩⟩)
        (fun k => toString k)
        (sync_documents true (fun _ => ⟨Except.ok (some "t"), Except.ok [], ⟨true, ""⟩⟩)
          (fun k => toString k) emptySyncState
          [⟨some "A", some "a.txt", some "T1", none, none⟩,
           ⟨some "B", some "b.txt", some "T1", none, none⟩]).finalState
        [⟨some "A", some "a.txt", some "T1", none, none⟩,
         ⟨some "B", some "b.txt", some "T1", none, none⟩]).report.synced_count = 0 :=
  (second_run_idempotent true true
    (fun _ => ⟨Except.ok (some "t"), Except.ok [], ⟨true, ""⟩⟩)
    (fun _ => ⟨Except.ok (some "u"), Except.ok [], ⟨true, ""⟩⟩)
    (fun k => toString k) (fun k => toString k) emptySyncState
    [⟨some "A", some "a.txt", some "T1", none, none⟩,
     ⟨some "B", some "b.txt", some "T1", none, none⟩]
    (by decide) (by decide) (by decide) (by decide) (by decide)).1

/-- The specification's original eligibility wording: a discovered
document is Skipped exactly when (a) its extension is not in the
supported set, or (b) a `SyncedEntry` already exists for its id and its
current `modified` timestamp is not strictly greater than the stored
fingerprint. -/
def skippedSpecOrig (doc : DocInfo) (st : SyncState) : Bool :=
  !is_document_supported doc ||
  (match dictLookup (idOf doc) st.synced_documents with
   | some e =>
     !(truthy doc.modified && truthy e.modified
        && pyStrGt (pyGetStr doc.modified) (pyGetStr e.modified))
   | none => false)

/-- C1 counterexample: a document with a supported extension, a `modified`
timestamp and no recorded entry, but no id, is skipped by the code even
though the specification's wording classifies it as Eligible. -/
theorem eligibility_claim_counterexample :
    should_sync_document ⟨none, some "a.txt", some "2024-01-01", none, none⟩ emptySyncState
      = false ∧
    skippedSpecOrig ⟨none, some "a.txt", some "2024-01-01", none, none⟩ emptySyncState
      = false := by
  decide

/-- The amended eligibility specification: a document is Skipped exactly
when its id is missing or empty, its extension is not in the supported
set, or a `SyncedEntry` exists for its id and both the current `modified`
timestamp and the stored fingerprint are present (non-empty) and the
current timestamp is not strictly greater than the stored one. -/
def skippedSpecAmended (doc : DocInfo) (st : SyncState) : Bool :=
  !truthy doc.id || !is_document_supported doc ||
  (match dictLookup (idOf doc) st.synced_documents with
   | some e =>
     truthy doc.modified && truthy e.modified
       && !pyStrGt (pyGetStr doc.modified) (pyGetStr e.modified)
   | none => false)

/-- C1 (amended): `should_sync_document` skips a document exactly when the
amended specification says so; in particular a supported document with an
existing entry whose current `modified` timestamp strictly exceeds the
stored fingerprint is re-synced. -/
theorem eligibility_decision (doc : DocInfo) (st : SyncState) :
    (should_sync_document doc st = false ↔ skippedSpecAmended doc st = true) ∧
    (∀ e : SyncedEntry, truthy doc.id = true → is_document_supported doc = true →
      dictLookup (idOf doc) st.synced_documents = some e →
      truthy doc.modified = true → truthy e.modified = true →
      pyStrGt (pyGetStr doc.modified) (pyGetStr e.modified) = true →
      should_sync_document doc st = true) := by
  constructor
  · unfold should_sync_document skippedSpecAmended
    cases h1 : truthy doc.id
    · simp
    · cases h2 : is_document_supported doc
      · simp
      · cases h3 : dictLookup (idOf doc) st.synced_documents with
        | none => simp [h3]
        | some e =>
          simp only [h3]
          cases h4 : truthy doc.modified <;> cases h5 : truthy e.modified <;>
            simp [h4, h5]
  · intro e h1 h2 h3 h4 h5 h6
    unfold should_sync_document
    simp [h1, h2, h3, h4, h5, h6]

theorem eligibility_decision_witness :
    should_sync_document ⟨some "A", some "a.txt", some "T2", none, none⟩
      ⟨none, [("A", { name := some "a.txt", modified := some "T1", sync_date := "t0" })], []⟩
      = true :=
  (eligibility_decision ⟨some "A", some "a.txt", some "T2", none, none⟩
    ⟨none, [("A", { name := some "a.txt", modified := some "T1", sync_date := "t0" })], []⟩).2
    { name := some "a.txt", modified := some "T1", sync_date := "t0" }
    (by decide) (by decide) (by decide) (by decide) (by decide) (by decide)

/-- C10: when an entry exists but the document's current `modified` value
or the stored fingerprint is missing (or empty), the document is treated
as eligible and re-synced; and a document record with a missing (or
empty) id is silently skipped by the loop — no sync, no failure record,
no state change at all. -/
theorem null_fingerprint_resync_and_no_id_skip :
    (∀ (doc : DocInfo) (st : SyncState) (e : SyncedEntry),
      truthy doc.id = true → is_document_supported doc = true →
      dictLookup (idOf doc) st.synced_documents = some e →
      (truthy doc.modified = false ∨ truthy e.modified = false) →
      should_sync_document doc st = true) ∧
    (∀ (ragA : Bool) (env : DocInfo → DocEnv) (clock : Nat → String)
      (ls : LoopState) (doc : DocInfo), truthy doc.id = false →
      syncStep ragA env clock ls doc = ls) := by
  constructor
  · intro doc st e h1 h2 h3 h4
    unfold should_sync_document
    rcases h4 with h4 | h4 <;> simp [h1, h2, h3, h4]
  · intro ragA env clock ls doc h
    refine syncStep_skip_eq ragA env clock ls doc ?_
    unfold should_sync_document
    simp [h]

theorem null_fingerprint_resync_and_no_id_skip_witness :
    should_sync_document ⟨some "A", some "a.txt", some "T2", none, none⟩
      ⟨none, [("A", { name := some "a.txt", modified := none, sync_date := "t0" })], []⟩
      = true ∧
    syncStep true (fun _ => ⟨Except.ok (some "t"), Except.ok [], ⟨true, ""⟩⟩)
      (fun _ => "t0") ⟨emptySyncState, 0, 0, [], 0, []⟩
      ⟨none, some "a.txt", some "T2", none, none⟩
      = ⟨emptySyncState, 0, 0, [], 0, []⟩ :=
  ⟨null_fingerprint_resync_and_no_id_skip.1
      ⟨some "A", some "a.txt", some "T2", none, none⟩
      ⟨none, [("A", { name := some "a.txt", modified := none, sync_date := "t0" })], []⟩
      { name := some "a.txt", modified := none, sync_date := "t0" }
      (by decide) (by decide) (by decide) (Or.inr (by decide)),
   null_fingerprint_resync_and_no_id_skip.2 true
      (fun _ => ⟨Except.ok (some "t"), Except.ok [], ⟨true, ""⟩⟩)
      (fun _ => "t0") ⟨emptySyncState, 0, 0, [], 0, []⟩
      ⟨none, some "a.txt", some "T2", none, none⟩ (by decide)⟩

/-- Whether an environment makes the per-document pipeline fail: the
download raises or returns a falsy path, the processing raises, or the
knowledge-base add reports failure while a pipeline is attached. -/
def docFails (ragA : Bool) (e : DocEnv) : Bool :=
  match e.download with
  | Except.error _ => true
  | Except.ok p =>
    if truthy p = false then true
    else
      match e.process with
      | Except.error _ => true
      | Except.ok _ => ragA && !e.addResult.success

/-- C7: every per-document error — download raise or falsy path,
extraction/chunking raise, or store-upsert failure — is caught inside
`sync_document`, which then returns failure together with an error
message instead of propagating; the loop records exactly one
`FailureEntry` carrying that document's id, name and error message. -/
theorem per_document_error_containment (ragA : Bool) :
    (∀ (env : DocEnv) (doc : DocInfo),
      (sync_document ragA env doc).1.1 = false ↔ docFails ragA env = true) ∧
    (∀ (env : DocEnv) (doc : DocInfo), (sync_document ragA env doc).1.1 = false →
      ((sync_document ragA env doc).1.2).isSome = true) ∧
    (∀ (env : DocInfo → DocEnv) (clock : Nat → String) (ls : LoopState) (doc : DocInfo),
      should_sync_document doc ls.state = true → succeedsB ragA env doc = false →
      (syncStep ragA env clock ls doc).failedDocs
        = ls.failedDocs ++ [failEntryOf ragA env doc]) := by
  refine ⟨?_, ?_, ?_⟩
  · intro env doc
    unfold sync_document docFails
    rcases env.download with e | p
    · simp
    · cases hp : truthy p
      · simp [hp]
      · rcases hpr : env.process with e | docs
        · simp [hp, hpr]
        · cases hra : ragA <;> cases hsu : env.addResult.success <;>
            simp [hp, hpr, hra, hsu]
  · intro env doc
    unfold sync_document
    rcases env.download with e | p
    · simp
    · cases hp : truthy p
      · simp [hp]
      · rcases hpr : env.process with e | docs
        · simp [hp, hpr]
        · cases hra : ragA <;> cases hsu : env.addResult.success <;>
            simp [hp, hpr, hra, hsu]
  · intro env clock ls doc he hf
    rw [syncStep_fail_eq ragA env clock ls doc he hf]

theorem per_document_error_containment_witness :
    (sync_document true ⟨Except.ok (some "t"), Except.error "boom", ⟨true, ""⟩⟩
        ⟨some "1", some "a.txt", some "m", none, none⟩).1.1 = false ∧
    ((sync_document true ⟨Except.ok (some "t"), Except.error "boom", ⟨true, ""⟩⟩
        ⟨some "1", some "a.txt", some "m", none, none⟩).1.2).isSome = true ∧
    (syncStep true (fun _ => ⟨Except.ok (some "t"), Except.error "boom", ⟨true, ""⟩⟩)
        (fun _ => "t0") ⟨emptySyncState, 0, 0, [], 0, []⟩
        ⟨some "1", some "a.txt", some "m", none, none⟩).failedDocs
      = [] ++ [failEntryOf true
          (fun _ => ⟨Except.ok (some "t"), Except.error "boom", ⟨true, ""⟩⟩)
          ⟨some "1", some "a.txt", some "m", none, none⟩] :=
  ⟨(per_document_error_containment true).1
      ⟨Except.ok (some "t"), Except.error "boom", ⟨true, ""⟩⟩
      ⟨some "1", some "a.txt", some "m", none, none⟩ |>.mpr (by decide),
   (per_document_error_containment true).2.1
      ⟨Except.ok (some "t"), Except.error "boom", ⟨true, ""⟩⟩
      ⟨some "1", some "a.txt", some "m", none, none⟩ (by decide),
   (per_document_error_containment true).2.2
      (fun _ => ⟨Except.ok (some "t"), Except.error "boom", ⟨true, ""⟩⟩)
      (fun _ => "t0") ⟨emptySyncState, 0, 0, [], 0, []⟩
      ⟨some "1", some "a.txt", some "m", none, none⟩ (by decide) (by decide)⟩

/-- C9: whenever the download stage produced a (truthy) temporary file
path, the `finally` block of `sync_document` removes that file before the
call returns — on the success path and on every path where processing or
the store upsert fails. -/
theorem temp_file_cleanup (ragA : Bool) (env : DocEnv) (doc : DocInfo) (p : String)
    (hd : env.download = Except.ok (some p)) (hp : p ≠ "") :
    Event.cleanupTemp p ∈ (sync_document ragA env doc).2 := by
  unfold sync_document
  rw [hd]
  have hp' : truthy (some p) = true := by simp [truthy, hp]
  rcases env.process with e | docs
  · simp [hp', pyGetStr]
  · simp [hp', pyGetStr]
    split <;> simp

theorem temp_file_cleanup_witness :
    Event.cleanupTemp "tmpfile"
      ∈ (sync_document true ⟨Except.ok (some "tmpfile"), Except.error "boom", ⟨true, ""⟩⟩
          ⟨some "1", some "a.txt", some "m", none, none⟩).2 :=
  temp_file_cleanup true ⟨Except.ok (some "tmpfile"), Except.error "boom", ⟨true, ""⟩⟩
    ⟨some "1", some "a.txt", some "m", none, none⟩ "tmpfile" rfl (by decide)

/-- C8: when extraction yields text that is empty after trimming,
`process_document` raises (it never returns an empty chunk list for such
input); when the trimmed text is non-empty it returns one document per
chunk the splitter produced, with 0-based contiguous `chunk_id` values
and `total_chunks` equal to the number of chunks produced. -/
theorem process_document_contract (env : ProcEnv) (file_path text : String)
    (hx : env.extract = Except.ok text) :
    (pyStrip text = "" →
      process_document env file_path
        = Except.error ("No text could be extracted from " ++ file_path)) ∧
    (pyStrip text ≠ "" →
      ∃ docs : List LCDocument,
        process_document env file_path = Except.ok docs ∧
        docs.length = (env.split_text text).length ∧
        ∀ (i : Nat) (d : LCDocument), docs[i]? = some d →
          d.metadata.chunk_id = some i ∧ d.metadata.total_chunks = some docs.length) := by
  constructor
  · intro h
    unfold process_document
    rw [hx]
    simp [h]
  · intro h
    refine ⟨(env.split_text text).enum.map (fun p =>
      { page_content := p.2,
        metadata :=
          { source := some (basename file_path),
            file_path := some file_path,
            file_type := some (strLower (splitextExt (basename file_path))),
            chunk_id := some p.1,
            total_chunks := some (env.split_text text).length } }), ?_, ?_, ?_⟩
    · unfold process_document
      rw [hx]
      simp [h]
    · simp
    · intro i d hd
      simp only [List.getElem?_map, List.getElem?_enum] at hd
      rcases hcc : (env.split_text text)[i]? with _ | c
      · rw [hcc] at hd
        simp at hd
      · rw [hcc] at hd
        simp at hd
        subst hd
        constructor <;> simp

theorem process_document_contract_witness :
    process_document ⟨Except.ok "  ", fun t => [t]⟩ "f.txt"
      = Except.error ("No text could be extracted from " ++ "f.txt") ∧
    ∃ docs : List LCDocument,
      process_document ⟨Except.ok "hello", fun t => [t]⟩ "f.txt" = Except.ok docs ∧
      docs.length = ((fun t => [t]) "hello" : List String).length ∧
      ∀ (i : Nat) (d : LCDocument), docs[i]? = some d →
        d.metadata.chunk_id = some i ∧ d.metadata.total_chunks = some docs.length :=
  ⟨(process_document_contract ⟨Except.ok "  ", fun t => [t]⟩ "f.txt" "  " rfl).1 (by decide),
   (process_document_contract ⟨Except.ok "hello", fun t => [t]⟩ "f.txt" "hello" rfl).2
     (by decide)⟩

/-- C6 counterexample: the knowledge-store identifier includes the
chunk's position in the submitted batch, so the same chunk (same
`source`, same `chunk_id`) submitted at position 0 of one batch and at
position 1 of another receives two different identifiers — a re-upsert
at a different position duplicates instead of overwriting. -/
theorem chunk_identity_counterexample :
    (add_documents_ids [⟨"x", { source := some "a.txt", chunk_id := some 0 }⟩])[0]?
      = some "doc_0_a.txt_0" ∧
    (add_documents_ids
        [⟨"y", { source := some "b.txt", chunk_id := some 0 }⟩,
         ⟨"x", { source := some "a.txt", chunk_id := some 0 }⟩])[1]?
      = some "doc_1_a.txt_0" ∧
    ("doc_0_a.txt_0" : String) ≠ "doc_1_a.txt_0" := by
  decide

/-- C6 (amended): the store identifier is determined by the triple
(batch position, `source`, `chunk_id`): two chunks submitted at the same
position of their respective batches that agree on `source` and
`chunk_id` receive the same identifier, whatever the rest of either
batch contains. -/
theorem chunk_identity_amended (b1 b2 : List LCDocument) (i : Nat) (d1 d2 : LCDocument)
    (h1 : b1[i]? = some d1) (h2 : b2[i]? = some d2)
    (hsrc : d1.metadata.source = d2.metadata.source)
    (hcid : d1.metadata.chunk_id = d2.metadata.chunk_id) :
    (add_documents_ids b1)[i]? = (add_documents_ids b2)[i]? := by
  unfold add_documents_ids
  simp [List.getElem?_map, List.getElem?_enum, h1, h2, hsrc, hcid]

theorem chunk_identity_amended_witness :
    (add_documents_ids [⟨"x", { source := some "a.txt", chunk_id := some 0 }⟩])[0]?
      = (add_documents_ids [⟨"other text", { source := some "a.txt", chunk_id := some 0 }⟩])[0]? :=
  chunk_identity_amended
    [⟨"x", { source := some "a.txt", chunk_id := some 0 }⟩]
    [⟨"other text", { source := some "a.txt", chunk_id := some 0 }⟩]
    0 ⟨"x", { source := some "a.txt", chunk_id := some 0 }⟩
    ⟨"other text", { source := some "a.txt", chunk_id := some 0 }⟩
    (by decide) (by decide) (by decide) (by decide)

end KB
